import Mathlib

/-!
Verification development for the Aetherium client-side vault encryption
subsystem (src/js/encryption.js, the vault-logic module bundled into
src/js/database.js, src/js/vault-ui.js and src/js/vault.js).

Modelling conventions:
* Byte buffers (Uint8Array / ArrayBuffer) are lists of naturals; every byte
  produced by the platform is below 256, stated as a hypothesis where needed.
* Text kept in the document store (base64 fields) is a list of characters.
* The browser Web Crypto / TextEncoder / JSON primitives are external
  collaborators; they are modelled as a record of functions (`WebPlatform`)
  and the contracts the code relies on (AEAD inversion, UTF-8 round trip,
  JSON round trip) appear as explicit hypotheses of the theorems.
* Fallible operations return Except String, mirroring thrown JS errors and
  the exact user-facing messages of the source.
-/

namespace Aetherium

/-- The 64 characters of the standard base64 alphabet used by btoa/atob. -/
def b64Alphabet : List Char :=
  ['A', 'B', 'C', 'D', 'E', 'F', 'G', 'H', 'I', 'J', 'K', 'L', 'M',
   'N', 'O', 'P', 'Q', 'R', 'S', 'T', 'U', 'V', 'W', 'X', 'Y', 'Z',
   'a', 'b', 'c', 'd', 'e', 'f', 'g', 'h', 'i', 'j', 'k', 'l', 'm',
   'n', 'o', 'p', 'q', 'r', 's', 't', 'u', 'v', 'w', 'x', 'y', 'z',
   '0', '1', '2', '3', '4', '5', '6', '7', '8', '9', '+', '/']

/-- Character for a six-bit group. -/
def sextetToChar (n : Nat) : Char := b64Alphabet.getD n '?'

/-- Index of a base64 character in the alphabet (inverse of sextetToChar). -/
def charToSextet (c : Char) : Nat := b64Alphabet.indexOf c

/-- Model of js/encryption.js arrayBufferToBase64: the bytes are turned into a
binary string and passed to btoa, i.e. standard base64 with '=' padding. -/
def arrayBufferToBase64 : List Nat → List Char
  | [] => []
  | [b1] =>
      [sextetToChar (b1 / 4), sextetToChar (b1 % 4 * 16), '=', '=']
  | [b1, b2] =>
      [sextetToChar (b1 / 4), sextetToChar (b1 % 4 * 16 + b2 / 16),
       sextetToChar (b2 % 16 * 4), '=']
  | b1 :: b2 :: b3 :: rest =>
      sextetToChar (b1 / 4) ::
      sextetToChar (b1 % 4 * 16 + b2 / 16) ::
      sextetToChar (b2 % 16 * 4 + b3 / 64) ::
      sextetToChar (b3 % 64) ::
      arrayBufferToBase64 rest

/-- Model of js/encryption.js base64ToUint8Array: atob followed by reading the
character codes of the resulting binary string back into a byte array. -/
def base64ToUint8Array : List Char → List Nat
  | c1 :: c2 :: c3 :: c4 :: rest =>
      if c3 = '=' then
        [charToSextet c1 * 4 + charToSextet c2 / 16]
      else if c4 = '=' then
        [charToSextet c1 * 4 + charToSextet c2 / 16,
         charToSextet c2 % 16 * 16 + charToSextet c3 / 4]
      else
        (charToSextet c1 * 4 + charToSextet c2 / 16) ::
        (charToSextet c2 % 16 * 16 + charToSextet c3 / 4) ::
        (charToSextet c3 % 4 * 64 + charToSextet c4) ::
        base64ToUint8Array rest
  | _ => []

theorem charToSextet_sextetToChar (n : Nat) (h : n < 64) :
    charToSextet (sextetToChar n) = n := by
  have : ∀ m : Fin 64, charToSextet (sextetToChar m.val) = m.val := by decide
  exact this ⟨n, h⟩

theorem sextetToChar_ne_pad (n : Nat) (h : n < 64) : sextetToChar n ≠ '=' := by
  have : ∀ m : Fin 64, sextetToChar m.val ≠ '=' := by decide
  exact this ⟨n, h⟩

/-- The storage codec is a lossless round trip on byte lists. -/
theorem base64_roundtrip :
    ∀ b : List Nat, (∀ x ∈ b, x < 256) →
      base64ToUint8Array (arrayBufferToBase64 b) = b := by
  intro b
  induction b using arrayBufferToBase64.induct with
  | case1 =>
      intro _; rfl
  | case2 b1 =>
      intro hb
      have h1 : b1 < 256 := hb b1 (by simp)
      have hs1 : b1 / 4 < 64 := by omega
      have hs2 : b1 % 4 * 16 < 64 := by omega
      simp only [arrayBufferToBase64, base64ToUint8Array, if_pos rfl]
      rw [charToSextet_sextetToChar _ hs1, charToSextet_sextetToChar _ hs2]
      have he : b1 / 4 * 4 + b1 % 4 * 16 / 16 = b1 := by omega
      rw [he]
      simp
  | case3 b1 b2 =>
      intro hb
      have h1 : b1 < 256 := hb b1 (by simp)
      have h2 : b2 < 256 := hb b2 (by simp)
      have hs1 : b1 / 4 < 64 := by omega
      have hs2 : b1 % 4 * 16 + b2 / 16 < 64 := by omega
      have hs3 : b2 % 16 * 4 < 64 := by omega
      simp only [arrayBufferToBase64, base64ToUint8Array,
        if_neg (sextetToChar_ne_pad _ hs3), if_pos rfl]
      rw [charToSextet_sextetToChar _ hs1, charToSextet_sextetToChar _ hs2,
        charToSextet_sextetToChar _ hs3]
      have he1 : b1 / 4 * 4 + (b1 % 4 * 16 + b2 / 16) / 16 = b1 := by omega
      have he2 : (b1 % 4 * 16 + b2 / 16) % 16 * 16 + b2 % 16 * 4 / 4 = b2 := by
        omega
      rw [he1, he2]
      simp
  | case4 b1 b2 b3 rest ih =>
      intro hb
      have h1 : b1 < 256 := hb b1 (by simp)
      have h2 : b2 < 256 := hb b2 (by simp)
      have h3 : b3 < 256 := hb b3 (by simp)
      have hrest : ∀ x ∈ rest, x < 256 := by
        intro x hx; exact hb x (by simp [hx])
      have hs1 : b1 / 4 < 64 := by omega
      have hs2 : b1 % 4 * 16 + b2 / 16 < 64 := by omega
      have hs3 : b2 % 16 * 4 + b3 / 64 < 64 := by omega
      have hs4 : b3 % 64 < 64 := by omega
      simp only [arrayBufferToBase64, base64ToUint8Array,
        if_neg (sextetToChar_ne_pad _ hs3), if_neg (sextetToChar_ne_pad _ hs4)]
      rw [charToSextet_sextetToChar _ hs1, charToSextet_sextetToChar _ hs2,
        charToSextet_sextetToChar _ hs3, charToSextet_sextetToChar _ hs4,
        ih hrest]
      simp only [List.cons.injEq, and_true]
      omega

/-- Hash choice handed to the PBKDF2 primitive (the source always passes
SHA-256). -/
inductive HashAlg
  | sha256
deriving DecidableEq

/-- Parameter block of the PBKDF2 call in deriveKey. -/
structure Pbkdf2Params where
  salt : List Nat
  iterations : Nat
  hash : HashAlg
deriving DecidableEq

/-- Cipher selector for the derived key (the source always passes AES-GCM). -/
inductive CipherAlg
  | aesGcm
deriving DecidableEq

/-- Algorithm and key length requested for the derived key. -/
structure DerivedKeyAlg where
  name : CipherAlg
  length : Nat
deriving DecidableEq

/-- The browser primitives the encryption module calls (window.crypto.subtle,
TextEncoder/TextDecoder, JSON). Keys and key material are opaque handles
modelled as naturals; each fallible operation returns Except like a thrown
DOMException. The code under src/ never inspects these handles, so any
instance of this structure is a faithful environment. -/
structure WebPlatform where
  importKeyPBKDF2 : List Nat → Except String Nat
  deriveKeyPBKDF2 : Pbkdf2Params → Nat → DerivedKeyAlg → Except String Nat
  aesGcmEncrypt : Nat → List Nat → List Nat → Except String (List Nat)
  aesGcmDecrypt : Nat → List Nat → List Nat → Except String (List Nat)
  utf8Encode : String → List Nat
  utf8Decode : List Nat → String
  jsonStringifyPair : Option String → Option String → String
  jsonParsePair : String → Option (Option String × Option String)

/-- Model of js/encryption.js deriveKey: imports the UTF-8 bytes of the
password as PBKDF2 key material, then derives an AES-GCM 256 key with
100000 iterations of PBKDF2-HMAC-SHA256. No salt validation is performed. -/
def deriveKey (W : WebPlatform) (password : String) (salt : List Nat) :
    Except String Nat := do
  let keyMaterial ← W.importKeyPBKDF2 (W.utf8Encode password)
  W.deriveKeyPBKDF2
    { salt := salt, iterations := 100000, hash := HashAlg.sha256 }
    keyMaterial
    { name := CipherAlg.aesGcm, length := 256 }

/-- Model of js/encryption.js encryptData: the 12-byte IV freshly drawn from
getRandomValues is passed in explicitly as iv; AES-GCM encrypts the UTF-8
bytes of the plaintext and both IV and ciphertext are returned. -/
def encryptData (W : WebPlatform) (iv : List Nat) (key : Nat)
    (plaintext : String) : Except String (List Nat × List Nat) := do
  let ciphertext ← W.aesGcmEncrypt key iv (W.utf8Encode plaintext)
  pure (iv, ciphertext)

/-- Model of js/encryption.js decryptData: AES-GCM decrypts and the result is
UTF-8 decoded; any failure is replaced by the single generic error message
of the source. -/
def decryptData (W : WebPlatform) (key : Nat) (iv ciphertext : List Nat) :
    Except String String :=
  match W.aesGcmDecrypt key iv ciphertext with
  | Except.ok bytes => Except.ok (W.utf8Decode bytes)
  | Except.error _ =>
      Except.error "Failed to decrypt data. Key might be incorrect or data corrupted."

/-! Concrete platform instance used to witness the theorems on explicit
inputs. The AEAD cipher prepends a key-dependent tag byte and rejects any
buffer whose tag does not match; JSON is replaced by an injective tagged
pair encoding. -/

/-- Tag for the toy pair encoding. -/
def toyTag : Option String → String
  | none => "n"
  | some s => "s" ++ s

/-- Inverse of toyTag at the character-list level. -/
def toyUntag : List Char → Option (Option String)
  | ['n'] => some none
  | 's' :: rest => some (some (String.mk rest))
  | _ => none

/-- Splits a character list at every pipe character. -/
def splitOnPipe : List Char → List (List Char)
  | [] => [[]]
  | c :: rest =>
      let r := splitOnPipe rest
      if c = '|' then [] :: r
      else
        match r with
        | [] => [[c]]
        | h :: t => (c :: h) :: t

/-- Toy pair serialisation standing in for JSON.stringify. -/
def toyJsonStringify (pw pin : Option String) : String :=
  toyTag pw ++ "|" ++ toyTag pin

/-- Toy pair parsing standing in for JSON.parse. -/
def toyJsonParse (s : String) : Option (Option String × Option String) :=
  match splitOnPipe s.data with
  | [a, b] =>
      match toyUntag a, toyUntag b with
      | some x, some y => some (x, y)
      | _, _ => none
  | _ => none

/-- Simple injective fold of a byte list into a handle. -/
def byteFold (l : List Nat) : Nat :=
  l.foldl (fun a b => a * 257 + b + 1) 7

/-- Concrete WebPlatform used for witnesses. -/
def toyWeb : WebPlatform where
  importKeyPBKDF2 bytes := Except.ok (byteFold bytes)
  deriveKeyPBKDF2 p km _ := Except.ok (km * 65537 + byteFold p.salt)
  aesGcmEncrypt key _iv msg := Except.ok (key % 251 :: msg)
  aesGcmDecrypt key _iv ct :=
    match ct with
    | [] => Except.error "OperationError"
    | t :: rest =>
        if t = key % 251 then Except.ok rest else Except.error "OperationError"
  utf8Encode s := s.data.map Char.toNat
  utf8Decode l := String.mk (l.map Char.ofNat)
  jsonStringifyPair := toyJsonStringify
  jsonParsePair := toyJsonParse

/-- C1: for every plaintext string p and every key k produced by deriveKey,
decrypting the output of encryptData with the same key and the IV it
returned recovers p exactly. The AEAD inversion contract of the platform
cipher and the UTF-8 round trip are the stated hypotheses. -/
theorem encryptData_decryptData_roundtrip (W : WebPlatform) (key : Nat)
    (iv : List Nat) (p : String) (ct : List Nat)
    (hgcm : ∀ m c, W.aesGcmEncrypt key iv m = Except.ok c →
      W.aesGcmDecrypt key iv c = Except.ok m)
    (hutf : W.utf8Decode (W.utf8Encode p) = p)
    (henc : encryptData W iv key p = Except.ok (iv, ct)) :
    decryptData W key iv ct = Except.ok p := by
  cases h : W.aesGcmEncrypt key iv (W.utf8Encode p) with
  | error e => simp [encryptData, h] at henc
  | ok c =>
      simp only [encryptData, h, bind, Except.bind] at henc
      cases henc
      have hdec := hgcm (W.utf8Encode p) ct (by rw [h])
      simp [decryptData, hdec, hutf]

/-- Witness for C1 at a concrete key, IV and plaintext on the toy platform. -/
theorem encryptData_decryptData_roundtrip_witness :
    decryptData toyWeb 42 [1, 2, 3] (42 :: toyWeb.utf8Encode "pw") =
      Except.ok "pw" :=
  encryptData_decryptData_roundtrip toyWeb 42 [1, 2, 3] "pw"
    (42 :: toyWeb.utf8Encode "pw")
    (by
      intro m c h
      simp only [toyWeb, Except.ok.injEq] at h
      subst h
      simp [toyWeb])
    (by decide)
    (by rfl)

/-- C8 counterexample: deriveKey performs no salt-length validation, so a
3-byte salt (shorter than the 16-byte contract minimum) derives a key
successfully instead of failing with a KeyDerivationError. -/
theorem deriveKey_short_salt_succeeds :
    (deriveKey toyWeb "pw" [1, 2, 3]).isOk = true := by decide

/-- C8 amended: deriveKey fails only by propagating a failure of the
underlying primitive (never falling back to a weaker derivation), and
whenever the key material imports it always performs PBKDF2-HMAC-SHA256
with exactly 100000 iterations requesting a 256-bit AES-GCM key — with no
validation of the salt length. -/
theorem deriveKey_fixed_params (W : WebPlatform) (password : String)
    (salt : List Nat) :
    deriveKey W password salt =
      match W.importKeyPBKDF2 (W.utf8Encode password) with
      | Except.error e => Except.error e
      | Except.ok km =>
          W.deriveKeyPBKDF2
            { salt := salt, iterations := 100000, hash := HashAlg.sha256 }
            km
            { name := CipherAlg.aesGcm, length := 256 } := by
  cases h : W.importKeyPBKDF2 (W.utf8Encode password) <;>
    simp [deriveKey, h, bind, Except.bind]

/-- C9: decoding the text encoding of any byte sequence returns it exactly:
the storage codec is a lossless round trip for byte values 0..255. -/
theorem codec_roundtrip (b : List Nat) (hb : ∀ x ∈ b, x < 256) :
    base64ToUint8Array (arrayBufferToBase64 b) = b :=
  base64_roundtrip b hb

/-- Witness for C9 on a concrete byte sequence covering boundary values. -/
theorem codec_roundtrip_witness :
    base64ToUint8Array (arrayBufferToBase64 [0, 255, 17, 99, 128]) =
      [0, 255, 17, 99, 128] :=
  codec_roundtrip [0, 255, 17, 99, 128] (by decide)

/-! Vault data model. Encrypted fields are stored as base64 text pairs; an
absent optional field is none. -/

/-- An encrypted field as persisted in the document store: base64 text for
the IV and the ciphertext. -/
structure StoredEnc where
  iv : List Char
  ciphertext : List Char
deriving DecidableEq

/-- A vault document as persisted in the store by the live vault-logic
module (src/js/database.js bundle, prepareAddVaultData shape). -/
structure StoredDoc where
  title : String
  username : Option String
  email : Option String
  imageData : Option String
  isMasterProtected : Bool
  encryptedPassword : Option StoredEnc
  encryptedPin : Option StoredEnc
  masterSalt : Option (List Char)
  masterEncryptedPayload : Option StoredEnc
deriving DecidableEq

/-- A stored document together with the id the store assigned to it, as
returned by getVaults. -/
structure RawVault extends StoredDoc where
  id : Nat
deriving DecidableEq

/-- A decrypted record as held in vaultsCache after fetchAndDecryptVaults:
the spread of the raw document with plaintext password and pin fields,
a decryptionError marker, and the session-key ciphertext fields blanked
(undefined is modelled as none). -/
structure CacheVault where
  id : Nat
  title : String
  username : Option String
  email : Option String
  imageData : Option String
  isMasterProtected : Bool
  masterSalt : Option (List Char)
  masterEncryptedPayload : Option StoredEnc
  password : Option String
  pin : Option String
  decryptionError : Bool
  encryptedPassword : Option StoredEnc
  encryptedPin : Option StoredEnc
deriving DecidableEq

/-- JS truthiness of a nullable string: null, undefined and the empty string
are falsy. -/
def truthyStr : Option String → Bool
  | none => false
  | some s => !s.isEmpty

/-- The idiom value || null of the source: keep a truthy string, otherwise
store null. -/
def orNull (o : Option String) : Option String :=
  if truthyStr o then o else none

/-- One encrypted field of a fetched record, as read by fetchAndDecryptVaults:
the field is decrypted only when present with truthy iv and ciphertext
texts; otherwise the plaintext is null. An error is a thrown decryption
failure. -/
def decryptStoredField (W : WebPlatform) (key : Nat) (field : Option StoredEnc) :
    Except String (Option String) :=
  match field with
  | some e =>
      if e.iv ≠ [] ∧ e.ciphertext ≠ [] then
        (decryptData W key (base64ToUint8Array e.iv)
          (base64ToUint8Array e.ciphertext)).map some
      else Except.ok none
  | none => Except.ok none

/-- The record pushed for a vault whose decryption threw: title suffixed,
plaintext fields null, decryptionError flag set, ciphertext fields blanked. -/
def failedCacheVault (v : RawVault) : CacheVault :=
  { id := v.id, title := v.title ++ " (Decryption Failed)",
    username := v.username, email := v.email, imageData := v.imageData,
    isMasterProtected := v.isMasterProtected, masterSalt := v.masterSalt,
    masterEncryptedPayload := v.masterEncryptedPayload,
    password := none, pin := none, decryptionError := true,
    encryptedPassword := none, encryptedPin := none }

/-- Per-record body of the fetch loop of fetchAndDecryptVaults: master
protected records skip decryption with null plaintext; otherwise the
password then the pin field are decrypted, any failure yielding the
failed-record shape instead of aborting. -/
def processVault (W : WebPlatform) (key : Nat) (v : RawVault) : CacheVault :=
  if v.isMasterProtected then
    { id := v.id, title := v.title, username := v.username, email := v.email,
      imageData := v.imageData, isMasterProtected := v.isMasterProtected,
      masterSalt := v.masterSalt,
      masterEncryptedPayload := v.masterEncryptedPayload,
      password := none, pin := none, decryptionError := false,
      encryptedPassword := none, encryptedPin := none }
  else
    match decryptStoredField W key v.encryptedPassword with
    | Except.error _ => failedCacheVault v
    | Except.ok pw =>
        match decryptStoredField W key v.encryptedPin with
        | Except.error _ => failedCacheVault v
        | Except.ok pn =>
            { id := v.id, title := v.title, username := v.username,
              email := v.email, imageData := v.imageData,
              isMasterProtected := v.isMasterProtected,
              masterSalt := v.masterSalt,
              masterEncryptedPayload := v.masterEncryptedPayload,
              password := pw, pin := pn, decryptionError := false,
              encryptedPassword := none, encryptedPin := none }

/-- Whether the fetch loop would throw while decrypting this record (the
source marks exactly these records with decryptionError). -/
def vaultDecryptFailed (W : WebPlatform) (key : Nat) (v : RawVault) : Bool :=
  !v.isMasterProtected &&
    (!(decryptStoredField W key v.encryptedPassword).isOk ||
     !(decryptStoredField W key v.encryptedPin).isOk)

/-- Insertion step of the title sort used on the cache (the comparator of the
source is localeCompare on titles; modelled by the string order). -/
def insertByTitle (v : CacheVault) : List CacheVault → List CacheVault
  | [] => [v]
  | w :: ws => if v.title ≤ w.title then v :: w :: ws else w :: insertByTitle v ws

/-- The sort applied to the decrypted list before it becomes the cache. -/
def sortByTitle : List CacheVault → List CacheVault
  | [] => []
  | v :: vs => insertByTitle v (sortByTitle vs)

/-- Session state of the vault-logic module: the logged-in principal, the
in-memory session key and the decrypted cache. -/
structure AppState where
  user : Option Nat
  key : Option Nat
  cache : List CacheVault
deriving DecidableEq

/-- Model of setVaultEncryptionKey: stores the key reference and, when it is
cleared, purges the cache. -/
def setVaultEncryptionKey (s : AppState) (key : Option Nat) : AppState :=
  if key.isNone then { s with key := key, cache := [] }
  else { s with key := key }

/-- Model of fetchAndDecryptVaults: requires a logged-in user and a session
key (checked in this order, with the exact thrown messages), then maps the
decryption loop over the raw records fetched from the store and replaces
the cache with the title-sorted result. rawVaults stands for the documents
the store returns; on either error nothing is fetched or decrypted, which
surfaces as the result being independent of rawVaults and the state being
unchanged. -/
def fetchAndDecryptVaults (W : WebPlatform) (s : AppState)
    (rawVaults : List RawVault) :
    AppState × Except String (List CacheVault) :=
  match s.user with
  | none => (s, Except.error "User not logged in. Cannot fetch vaults.")
  | some _ =>
      match s.key with
      | none =>
          (s, Except.error "Encryption key not available. Cannot decrypt vaults.")
      | some k =>
          let decrypted := sortByTitle (rawVaults.map (processVault W k))
          ({ s with cache := decrypted }, Except.ok decrypted)

theorem length_insertByTitle (v : CacheVault) (l : List CacheVault) :
    (insertByTitle v l).length = l.length + 1 := by
  induction l with
  | nil => rfl
  | cons w ws ih =>
      simp only [insertByTitle]
      split
      · simp
      · simp [ih]

theorem length_sortByTitle (l : List CacheVault) :
    (sortByTitle l).length = l.length := by
  induction l with
  | nil => rfl
  | cons v vs ih => simp [sortByTitle, length_insertByTitle, ih]

theorem mem_insertByTitle (a v : CacheVault) (l : List CacheVault) :
    a ∈ insertByTitle v l ↔ a = v ∨ a ∈ l := by
  induction l with
  | nil => simp [insertByTitle]
  | cons w ws ih =>
      simp only [insertByTitle]
      split
      · simp
      · simp [ih]; tauto

theorem mem_sortByTitle (a : CacheVault) (l : List CacheVault) :
    a ∈ sortByTitle l ↔ a ∈ l := by
  induction l with
  | nil => simp [sortByTitle]
  | cons v vs ih => simp [sortByTitle, mem_insertByTitle, ih]

theorem countP_insertByTitle (p : CacheVault → Bool) (v : CacheVault)
    (l : List CacheVault) :
    (insertByTitle v l).countP p = (v :: l).countP p := by
  induction l with
  | nil => rfl
  | cons w ws ih =>
      simp only [insertByTitle]
      split
      · rfl
      · simp only [List.countP_cons, ih]
        omega

theorem countP_sortByTitle (p : CacheVault → Bool) (l : List CacheVault) :
    (sortByTitle l).countP p = l.countP p := by
  induction l with
  | nil => rfl
  | cons v vs ih =>
      simp only [sortByTitle, countP_insertByTitle, List.countP_cons, ih]

/-- processVault always blanks the session-key ciphertext fields, in all
three branches. -/
theorem processVault_blanks_ciphertext (W : WebPlatform) (key : Nat)
    (v : RawVault) :
    (processVault W key v).encryptedPassword = none ∧
      (processVault W key v).encryptedPin = none := by
  unfold processVault
  split
  · exact ⟨rfl, rfl⟩
  · cases hp : decryptStoredField W key v.encryptedPassword with
    | error e => exact ⟨rfl, rfl⟩
    | ok pw =>
        cases hq : decryptStoredField W key v.encryptedPin with
        | error e => exact ⟨rfl, rfl⟩
        | ok pn => exact ⟨rfl, rfl⟩

/-- Per-record behaviour of the fetch loop: the decryptionError flag marks
exactly the records whose decryption threw; a marked record carries null
plaintext and the suffixed title; an unmarked non-master record carries the
decrypted values of its present fields under an unchanged title. -/
theorem processVault_cases (W : WebPlatform) (k : Nat) (v : RawVault) :
    ((processVault W k v).decryptionError = true ↔
      vaultDecryptFailed W k v = true) ∧
    (vaultDecryptFailed W k v = true →
      (processVault W k v).password = none ∧
      (processVault W k v).pin = none ∧
      (processVault W k v).title = v.title ++ " (Decryption Failed)") ∧
    (v.isMasterProtected = false → vaultDecryptFailed W k v = false →
      ∀ pw pn, decryptStoredField W k v.encryptedPassword = Except.ok pw →
        decryptStoredField W k v.encryptedPin = Except.ok pn →
        (processVault W k v).password = pw ∧
        (processVault W k v).pin = pn ∧
        (processVault W k v).decryptionError = false ∧
        (processVault W k v).title = v.title) := by
  unfold processVault vaultDecryptFailed
  cases hm : v.isMasterProtected with
  | true => simp [failedCacheVault]
  | false =>
      cases hp : decryptStoredField W k v.encryptedPassword with
      | error e => simp [failedCacheVault, Except.isOk, Except.toBool]
      | ok pw =>
          cases hq : decryptStoredField W k v.encryptedPin with
          | error e => simp [failedCacheVault, Except.isOk, Except.toBool]
          | ok pn =>
              refine ⟨?_, ?_, ?_⟩
              · simp [Except.isOk, Except.toBool]
              · simp [Except.isOk, Except.toBool]
              · intro _ _ pw2 pn2 hpw2 hpn2
                simp only [Except.ok.injEq] at hpw2 hpn2
                subst hpw2
                subst hpn2
                simp

/-- C2: a fetch with an active session key never aborts on a per-record
decryption failure: it returns the title-sorted decryption of every stored
record, of the same length as the stored list; a record is flagged
decryptionError exactly when its decryption threw, in which case its
password and pin are null and its title gains the failure suffix, while
every other non-master-protected record has its present encrypted fields
fully decrypted; the number of flagged records equals the number of failing
stored records. -/
theorem fetchAndDecryptVaults_partial_failure_isolation (W : WebPlatform)
    (s : AppState) (raws : List RawVault) (u k : Nat)
    (hu : s.user = some u) (hk : s.key = some k) :
    (fetchAndDecryptVaults W s raws).2 =
      Except.ok (sortByTitle (raws.map (processVault W k))) ∧
    (sortByTitle (raws.map (processVault W k))).length = raws.length ∧
    (sortByTitle (raws.map (processVault W k))).countP
        (fun r => r.decryptionError) =
      raws.countP (vaultDecryptFailed W k) ∧
    ∀ v ∈ raws,
      ((processVault W k v).decryptionError = true ↔
        vaultDecryptFailed W k v = true) ∧
      (vaultDecryptFailed W k v = true →
        (processVault W k v).password = none ∧
        (processVault W k v).pin = none ∧
        (processVault W k v).title = v.title ++ " (Decryption Failed)") ∧
      (v.isMasterProtected = false → vaultDecryptFailed W k v = false →
        ∀ pw pn, decryptStoredField W k v.encryptedPassword = Except.ok pw →
          decryptStoredField W k v.encryptedPin = Except.ok pn →
          (processVault W k v).password = pw ∧
          (processVault W k v).pin = pn ∧
          (processVault W k v).decryptionError = false ∧
          (processVault W k v).title = v.title) := by
  refine ⟨?_, ?_, ?_, ?_⟩
  · simp [fetchAndDecryptVaults, hu, hk]
  · simp [length_sortByTitle]
  · rw [countP_sortByTitle, List.countP_map]
    apply List.countP_congr
    intro v hv
    have h := (processVault_cases W k v).1
    simp only [Function.comp]
    cases hfail : vaultDecryptFailed W k v with
    | true => simp [h.2 hfail]
    | false =>
        cases hflag : (processVault W k v).decryptionError with
        | true => rw [h.1 hflag] at hfail; cases hfail
        | false => rfl
  · intro v _
    exact processVault_cases W k v

/-- Witness for C2: a concrete fetch over three stored records, one of which
has a corrupted ciphertext, yields three records with exactly one flagged. -/
theorem fetchAndDecryptVaults_partial_failure_isolation_witness :
    ((fetchAndDecryptVaults toyWeb
        { user := some 1, key := some 5, cache := [] }
        [{ title := "a", username := none, email := none, imageData := none,
           isMasterProtected := false,
           encryptedPassword := some
             { iv := arrayBufferToBase64 [9, 9],
               ciphertext := arrayBufferToBase64 (5 % 251 :: [104, 105]) },
           encryptedPin := none, masterSalt := none,
           masterEncryptedPayload := none, id := 10 },
         { title := "b", username := none, email := none, imageData := none,
           isMasterProtected := false,
           encryptedPassword := some
             { iv := arrayBufferToBase64 [9, 9],
               ciphertext := arrayBufferToBase64 [99, 104, 105] },
           encryptedPin := none, masterSalt := none,
           masterEncryptedPayload := none, id := 11 },
         { title := "c", username := none, email := none, imageData := none,
           isMasterProtected := false, encryptedPassword := none,
           encryptedPin := none, masterSalt := none,
           masterEncryptedPayload := none, id := 12 }]).2.map
      (fun l => (l.length, l.countP (fun r => r.decryptionError)))) =
      Except.ok (3, 1) := by
  have h := fetchAndDecryptVaults_partial_failure_isolation toyWeb
    { user := some 1, key := some 5, cache := [] }
    [{ title := "a", username := none, email := none, imageData := none,
       isMasterProtected := false,
       encryptedPassword := some
         { iv := arrayBufferToBase64 [9, 9],
           ciphertext := arrayBufferToBase64 (5 % 251 :: [104, 105]) },
       encryptedPin := none, masterSalt := none,
       masterEncryptedPayload := none, id := 10 },
     { title := "b", username := none, email := none, imageData := none,
       isMasterProtected := false,
       encryptedPassword := some
         { iv := arrayBufferToBase64 [9, 9],
           ciphertext := arrayBufferToBase64 [99, 104, 105] },
       encryptedPin := none, masterSalt := none,
       masterEncryptedPayload := none, id := 11 },
     { title := "c", username := none, email := none, imageData := none,
       isMasterProtected := false, encryptedPassword := none,
       encryptedPin := none, masterSalt := none,
       masterEncryptedPayload := none, id := 12 }]
    1 5 rfl rfl
  rw [h.1]
  have hlen := h.2.1
  have hcount := h.2.2.1
  simp only [Except.map]
  rw [hlen, hcount]
  refine congrArg Except.ok ?_
  decide

/-- C5: clearing the session key empties the cache, and any fetch attempted
by a logged-in user while no session key is installed fails with the
session-key-unavailable error, leaving the state unchanged and touching
neither the store nor any record (the outcome is independent of the stored
records). -/
theorem sessionKey_clear_behaviour (W : WebPlatform) (s s2 : AppState)
    (raws raws2 : List RawVault) (u : Nat)
    (hu : s2.user = some u) (hk : s2.key = none) :
    (setVaultEncryptionKey s none).cache = [] ∧
    fetchAndDecryptVaults W s2 raws =
      (s2, Except.error "Encryption key not available. Cannot decrypt vaults.") ∧
    fetchAndDecryptVaults W s2 raws = fetchAndDecryptVaults W s2 raws2 := by
  refine ⟨rfl, ?_, ?_⟩
  · simp [fetchAndDecryptVaults, hu, hk]
  · simp [fetchAndDecryptVaults, hu, hk]

/-- Witness for C5 at a concrete state with a logged-in user and no key. -/
theorem sessionKey_clear_behaviour_witness :
    (setVaultEncryptionKey { user := some 1, key := some 5, cache := [] }
        none).cache = [] ∧
    fetchAndDecryptVaults toyWeb { user := some 1, key := none, cache := [] }
        [] =
      ({ user := some 1, key := none, cache := [] },
        Except.error "Encryption key not available. Cannot decrypt vaults.") :=
  have h := sessionKey_clear_behaviour toyWeb
    { user := some 1, key := some 5, cache := [] }
    { user := some 1, key := none, cache := [] } [] [] 1 rfl rfl
  ⟨h.1, h.2.1⟩

/-- C10: after every successful fetch, every record in the new cache —
master-protected ones and failed ones included — carries
encryptedPassword = none and encryptedPin = none. -/
theorem cache_never_retains_ciphertext (W : WebPlatform) (s : AppState)
    (raws : List RawVault) (l : List CacheVault) (u k : Nat)
    (hu : s.user = some u) (hk : s.key = some k)
    (h : (fetchAndDecryptVaults W s raws).2 = Except.ok l) :
    (fetchAndDecryptVaults W s raws).1.cache = l ∧
    ∀ r ∈ l, r.encryptedPassword = none ∧ r.encryptedPin = none := by
  simp only [fetchAndDecryptVaults, hu, hk, Except.ok.injEq] at h ⊢
  subst h
  refine ⟨rfl, ?_⟩
  intro r hr
  rw [mem_sortByTitle] at hr
  obtain ⟨v, _, rfl⟩ := List.mem_map.mp hr
  exact processVault_blanks_ciphertext W k v

/-- Witness for C10 on a concrete fetch containing a master-protected record
and a record whose decryption fails. -/
theorem cache_never_retains_ciphertext_witness :
    (fetchAndDecryptVaults toyWeb { user := some 1, key := some 5, cache := [] }
        [{ title := "m", username := none, email := none, imageData := none,
           isMasterProtected := true,
           encryptedPassword := some
             { iv := arrayBufferToBase64 [9], ciphertext := arrayBufferToBase64 [1] },
           encryptedPin := none, masterSalt := some (arrayBufferToBase64 [2]),
           masterEncryptedPayload := some
             { iv := arrayBufferToBase64 [9], ciphertext := arrayBufferToBase64 [1] },
           id := 1 },
         { title := "x", username := none, email := none, imageData := none,
           isMasterProtected := false,
           encryptedPassword := some
             { iv := arrayBufferToBase64 [9],
               ciphertext := arrayBufferToBase64 [99, 1] },
           encryptedPin := none, masterSalt := none,
           masterEncryptedPayload := none, id := 2 }]).1.cache.all
      (fun r => r.encryptedPassword.isNone && r.encryptedPin.isNone) = true := by
  have h := cache_never_retains_ciphertext toyWeb
    { user := some 1, key := some 5, cache := [] }
    [{ title := "m", username := none, email := none, imageData := none,
       isMasterProtected := true,
       encryptedPassword := some
         { iv := arrayBufferToBase64 [9], ciphertext := arrayBufferToBase64 [1] },
       encryptedPin := none, masterSalt := some (arrayBufferToBase64 [2]),
       masterEncryptedPayload := some
         { iv := arrayBufferToBase64 [9], ciphertext := arrayBufferToBase64 [1] },
       id := 1 },
     { title := "x", username := none, email := none, imageData := none,
       isMasterProtected := false,
       encryptedPassword := some
         { iv := arrayBufferToBase64 [9],
           ciphertext := arrayBufferToBase64 [99, 1] },
       encryptedPin := none, masterSalt := none,
       masterEncryptedPayload := none, id := 2 }]
    _ 1 5 rfl rfl rfl
  rw [h.1]
  apply List.all_eq_true.mpr
  intro r hr
  have hfields := h.2 r hr
  simp [hfields.1, hfields.2]

/-! Add-path data preparation (prepareAddVaultData of the live vault-logic
module) and the secondary-secret unlock protocol
(handleMasterPasswordSubmit in src/js/vault-ui.js). -/

/-- Plaintext form of a record as assembled by the add form. -/
structure PlainVaultData where
  title : String
  username : Option String
  email : Option String
  password : Option String
  pin : Option String
  imageData : Option String
  isMasterProtected : Bool
  masterPassword : Option String
deriving DecidableEq

/-- Whether sub occurs inside s (the error.message.includes test of the
source catch block). -/
def containsSub (s sub : String) : Bool := (s.splitOn sub).length ≥ 2

/-- The document written for a master-protected record: only the combined
payload and its salt carry the secrets; the per-field ciphertexts are null
and no plaintext password, pin or master password field exists in the
stored shape. -/
def masterDocOf (d : PlainVaultData) (salt iv ct2 : List Nat) : StoredDoc :=
  { title := d.title, username := orNull d.username, email := orNull d.email,
    imageData := orNull d.imageData, isMasterProtected := d.isMasterProtected,
    encryptedPassword := none, encryptedPin := none,
    masterSalt := some (arrayBufferToBase64 salt),
    masterEncryptedPayload := some
      { iv := arrayBufferToBase64 iv, ciphertext := arrayBufferToBase64 ct2 } }

/-- Master-protected branch of prepareAddVaultData: draw a fresh salt
(ent 0 is this call's generateSalt output), derive a one-off key, encrypt
the JSON-encoded pair once (ent 1 is the IV draw), and remap any thrown
error as the source catch does. -/
def prepareAddMaster (W : WebPlatform) (ent : Nat → List Nat)
    (d : PlainVaultData) : Except String StoredDoc :=
  match (do
    let masterKey ← deriveKey W (d.masterPassword.getD "") (ent 0)
    let encryptedPayload ← encryptData W (ent 1) masterKey
      (W.jsonStringifyPair d.password d.pin)
    pure (masterDocOf d (ent 0) encryptedPayload.1 encryptedPayload.2)
    : Except String StoredDoc) with
  | Except.ok doc2 => Except.ok doc2
  | Except.error e =>
      if containsSub e "deriveKey" then
        Except.error "Failed to derive key from Master Password."
      else Except.error "Failed to encrypt data with Master Password."

/-- Session-key branch of prepareAddVaultData: the password and pin fields
are encrypted independently when truthy (ent n is the n-th getRandomValues
draw of this call), the master fields stay null. -/
def prepareAddSession (W : WebPlatform) (ent : Nat → List Nat) (k : Nat)
    (d : PlainVaultData) : Except String StoredDoc :=
  match (do
    let encPw ←
      if truthyStr d.password then do
        let encryptedPass ← encryptData W (ent 0) k (d.password.getD "")
        pure (some { iv := arrayBufferToBase64 encryptedPass.1,
                     ciphertext := arrayBufferToBase64 encryptedPass.2 })
      else pure none
    let encPin ←
      if truthyStr d.pin then do
        let encryptedPin ← encryptData W
          (ent (if truthyStr d.password then 1 else 0)) k (d.pin.getD "")
        pure (some { iv := arrayBufferToBase64 encryptedPin.1,
                     ciphertext := arrayBufferToBase64 encryptedPin.2 })
      else pure none
    pure { title := d.title, username := orNull d.username,
           email := orNull d.email, imageData := orNull d.imageData,
           isMasterProtected := d.isMasterProtected,
           encryptedPassword := encPw, encryptedPin := encPin,
           masterSalt := none, masterEncryptedPayload := none }
    : Except String StoredDoc) with
  | Except.ok doc2 => Except.ok doc2
  | Except.error _ =>
      Except.error "Failed to encrypt vault data using session key."

/-- Model of prepareAddVaultData: guards first (session key required unless
master protected; non-empty master password required when protected), then
the branch for the protection mode. -/
def prepareAddVaultData (W : WebPlatform) (ent : Nat → List Nat)
    (sessionKey : Option Nat) (d : PlainVaultData) : Except String StoredDoc :=
  if !d.isMasterProtected && sessionKey.isNone then
    Except.error "Session encryption key not available. Cannot prepare vault data."
  else if d.isMasterProtected && !truthyStr d.masterPassword then
    Except.error "Master Password is required but missing for protected vault item."
  else if d.isMasterProtected then prepareAddMaster W ent d
  else
    match sessionKey with
    | some k => prepareAddSession W ent k d
    | none =>
        Except.error "Session encryption key not available. Cannot prepare vault data."

/-- Shared shape lemma: on the master-protected path with a non-empty master
password, successful derivation and encryption, prepareAddVaultData stores
exactly the combined-payload document. -/
theorem prepareAdd_master_result (W : WebPlatform) (ent : Nat → List Nat)
    (sessionKey : Option Nat) (d : PlainVaultData) (mk : Nat) (ct : List Nat)
    (hm : d.isMasterProtected = true)
    (hmp : truthyStr d.masterPassword = true)
    (hderive : deriveKey W (d.masterPassword.getD "") (ent 0) = Except.ok mk)
    (henc : W.aesGcmEncrypt mk (ent 1)
      (W.utf8Encode (W.jsonStringifyPair d.password d.pin)) = Except.ok ct) :
    prepareAddVaultData W ent sessionKey d =
      Except.ok (masterDocOf d (ent 0) (ent 1) ct) := by
  simp [prepareAddVaultData, prepareAddMaster, hm, hmp, hderive, encryptData,
    henc, bind, Except.bind, pure, Except.pure]

/-- C3: adding a record with secondary (master-password) protection and a
non-empty master password stores a freshly generated salt (ent 0, the
generateSalt draw of this very call) and a single combined payload: the
encryption, under the one-off key derived from the master password and that
salt, of the JSON encoding of the password/pin pair; encryptedPassword and
encryptedPin are null and the stored shape has no plaintext password, pin
or master password field (StoredDoc has no such fields). -/
theorem prepareAddVaultData_master_protected_payload (W : WebPlatform)
    (ent : Nat → List Nat) (sessionKey : Option Nat) (d : PlainVaultData)
    (mk : Nat) (ct : List Nat)
    (hm : d.isMasterProtected = true)
    (hmp : truthyStr d.masterPassword = true)
    (hderive : deriveKey W (d.masterPassword.getD "") (ent 0) = Except.ok mk)
    (henc : W.aesGcmEncrypt mk (ent 1)
      (W.utf8Encode (W.jsonStringifyPair d.password d.pin)) = Except.ok ct) :
    prepareAddVaultData W ent sessionKey d =
      Except.ok
        { title := d.title, username := orNull d.username,
          email := orNull d.email, imageData := orNull d.imageData,
          isMasterProtected := d.isMasterProtected,
          encryptedPassword := none, encryptedPin := none,
          masterSalt := some (arrayBufferToBase64 (ent 0)),
          masterEncryptedPayload := some
            { iv := arrayBufferToBase64 (ent 1),
              ciphertext := arrayBufferToBase64 ct } } :=
  prepareAdd_master_result W ent sessionKey d mk ct hm hmp hderive henc

/-- Model of the unlock flow of handleMasterPasswordSubmit: a master
protected cache record with salt and payload present is unlocked by
deriving a key from the entered password and the stored salt, decrypting
the combined payload and JSON-parsing it; every failure inside the try is
replaced by the single user-facing message, which does not distinguish a
wrong guess from corrupted data. -/
def unlockRecord (W : WebPlatform) (v : CacheVault) (enteredPassword : String) :
    Except String (Option String × Option String) :=
  match v.isMasterProtected, v.masterSalt, v.masterEncryptedPayload with
  | true, some saltText, some payload =>
      (match (do
        let masterKey ← deriveKey W enteredPassword (base64ToUint8Array saltText)
        let payloadString ← decryptData W masterKey
          (base64ToUint8Array payload.iv) (base64ToUint8Array payload.ciphertext)
        (match W.jsonParsePair payloadString with
         | some pair => Except.ok pair
         | none => Except.error "SyntaxError")
        : Except String (Option String × Option String)) with
      | Except.ok pair => Except.ok pair
      | Except.error _ =>
          Except.error "Incorrect Master Password or data corrupted.")
  | _, _, _ => Except.error "Error: Could not process Master Password."

/-- C4: a record stored with secondary protection, fetched into the cache
(where its password and pin are null), unlocks with the creation master
password to the original password/pin pair; with any other password whose
derived key the cipher rejects, it fails with the single indistinct
error message. Platform contract hypotheses: AEAD inversion at the payload,
UTF-8 and JSON round trips, all transported bytes below 256. -/
theorem unlockRecord_secondary_protocol (W : WebPlatform)
    (ent : Nat → List Nat) (skey : Option Nat) (d : PlainVaultData)
    (mk : Nat) (ct : List Nat) (k vid : Nat)
    (hm : d.isMasterProtected = true)
    (hmp : truthyStr d.masterPassword = true)
    (hderive : deriveKey W (d.masterPassword.getD "") (ent 0) = Except.ok mk)
    (henc : W.aesGcmEncrypt mk (ent 1)
      (W.utf8Encode (W.jsonStringifyPair d.password d.pin)) = Except.ok ct)
    (hsalt : ∀ x ∈ ent 0, x < 256)
    (hiv : ∀ x ∈ ent 1, x < 256)
    (hct : ∀ x ∈ ct, x < 256)
    (hdec : W.aesGcmDecrypt mk (ent 1) ct =
      Except.ok (W.utf8Encode (W.jsonStringifyPair d.password d.pin)))
    (hutf : W.utf8Decode (W.utf8Encode (W.jsonStringifyPair d.password d.pin)) =
      W.jsonStringifyPair d.password d.pin)
    (hjson : W.jsonParsePair (W.jsonStringifyPair d.password d.pin) =
      some (d.password, d.pin)) :
    ∀ docv cv, prepareAddVaultData W ent skey d = Except.ok docv →
      cv = processVault W k { toStoredDoc := docv, id := vid } →
      cv.password = none ∧ cv.pin = none ∧
      unlockRecord W cv (d.masterPassword.getD "") =
        Except.ok (d.password, d.pin) ∧
      (∀ entered k2 e, entered ≠ d.masterPassword.getD "" →
        deriveKey W entered (ent 0) = Except.ok k2 →
        W.aesGcmDecrypt k2 (ent 1) ct = Except.error e →
        unlockRecord W cv entered =
          Except.error "Incorrect Master Password or data corrupted.") := by
  intro docv cv hprep hcv
  have hres := prepareAdd_master_result W ent skey d mk ct hm hmp hderive henc
  rw [hres] at hprep
  simp only [Except.ok.injEq] at hprep
  subst hprep
  subst hcv
  have hsalt2 : base64ToUint8Array (arrayBufferToBase64 (ent 0)) = ent 0 :=
    base64_roundtrip (ent 0) hsalt
  have hiv2 : base64ToUint8Array (arrayBufferToBase64 (ent 1)) = ent 1 :=
    base64_roundtrip (ent 1) hiv
  have hct2 : base64ToUint8Array (arrayBufferToBase64 ct) = ct :=
    base64_roundtrip ct hct
  refine ⟨?_, ?_, ?_, ?_⟩
  · simp [processVault, masterDocOf, hm]
  · simp [processVault, masterDocOf, hm]
  · simp [processVault, masterDocOf, hm, unlockRecord, hsalt2, hiv2, hct2,
      hderive, decryptData, hdec, hutf, hjson, bind, Except.bind, pure,
      Except.pure]
  · intro entered k2 e hne hderive2 hrej
    simp [processVault, masterDocOf, hm, unlockRecord, hsalt2, hiv2, hct2,
      hderive2, decryptData, hrej, bind, Except.bind]

/-- Entropy stream for the witnesses (the n-th getRandomValues draw). -/
def toyEnt : Nat → List Nat := fun n => [n + 1, n + 2, 250]

/-- Master password used by the witnesses. -/
def toyMp : String := "Sesame1!"

/-- Concrete master-protected add input for the witnesses. -/
def toyMasterData : PlainVaultData :=
  { title := "Bank", username := none, email := none,
    password := some "pw", pin := some "1234", imageData := none,
    isMasterProtected := true, masterPassword := some toyMp }

/-- The key toyWeb derives from the witness master password and salt. -/
def toyMk : Nat := byteFold (toyWeb.utf8Encode toyMp) * 65537 + byteFold (toyEnt 0)

/-- The key toyWeb derives from the wrong password over the same salt. -/
def toyK2 : Nat :=
  byteFold (toyWeb.utf8Encode "wrong") * 65537 + byteFold (toyEnt 0)

/-- The serialised sensitive payload of the witness record. -/
def toyPayloadStr : String := toyWeb.jsonStringifyPair (some "pw") (some "1234")

/-- The payload ciphertext toyWeb produces for the witness record. -/
def toyCt : List Nat := toyMk % 251 :: toyWeb.utf8Encode toyPayloadStr

/-- The stored document of the witness record. -/
def toyDocv : StoredDoc := masterDocOf toyMasterData (toyEnt 0) (toyEnt 1) toyCt

/-- The witness record as it sits in the cache after a fetch. -/
def toyCv : CacheVault := processVault toyWeb 9 { toStoredDoc := toyDocv, id := 77 }

/-- Witness for C4: concrete round trip with the right password, uniform
failure with a wrong one, plaintext fields null in the cache. -/
theorem unlockRecord_secondary_protocol_witness :
    toyCv.password = none ∧
    unlockRecord toyWeb toyCv toyMp = Except.ok (some "pw", some "1234") ∧
    unlockRecord toyWeb toyCv "wrong" =
      Except.error "Incorrect Master Password or data corrupted." := by
  have h := unlockRecord_secondary_protocol toyWeb toyEnt (some 9)
    toyMasterData toyMk toyCt 9 77 rfl rfl rfl rfl
    (by decide) (by decide) (by decide)
    rfl rfl rfl toyDocv toyCv rfl rfl
  exact ⟨h.1, h.2.2.1, h.2.2.2 "wrong" toyK2 "OperationError"
    (by decide) rfl rfl⟩

/-- Witness for C3: the concrete master-protected add stores exactly the
combined-payload document. -/
theorem prepareAddVaultData_master_protected_payload_witness :
    prepareAddVaultData toyWeb toyEnt (some 9) toyMasterData =
      Except.ok
        { title := "Bank", username := none, email := none, imageData := none,
          isMasterProtected := true,
          encryptedPassword := none, encryptedPin := none,
          masterSalt := some (arrayBufferToBase64 (toyEnt 0)),
          masterEncryptedPayload := some
            { iv := arrayBufferToBase64 (toyEnt 1),
              ciphertext := arrayBufferToBase64 toyCt } } :=
  prepareAddVaultData_master_protected_payload toyWeb toyEnt (some 9)
    toyMasterData toyMk toyCt rfl rfl rfl rfl

/-! Edit-path data preparation (prepareEditVaultData of the live vault-logic
module) and the legacy add path of src/js/vault.js (handleAddVaultSubmit,
whose processSave writes the store first and appends to the cache). -/

/-- Plaintext form of an edit as assembled by the edit form; imageData is
doubly optional: none models the JS undefined (field left out of the
update), some v models an explicit value or null. -/
structure PlainEditData where
  title : String
  username : Option String
  email : Option String
  password : Option String
  pin : Option String
  imageData : Option (Option String)
deriving DecidableEq

/-- The partial update document prepareEditVaultData sends to updateDoc:
for encryptedPassword none means the field is omitted from the update (it
is never explicitly nulled); for encryptedPin none means omitted, some none
means an explicit null (PIN removal), some (some e) a fresh ciphertext. -/
structure VaultUpdateDoc where
  title : String
  username : Option String
  email : Option String
  imageData : Option (Option String)
  encryptedPassword : Option StoredEnc
  encryptedPin : Option (Option StoredEnc)
deriving DecidableEq

/-- Model of prepareEditVaultData: always carries title/username/email (and
imageData when not undefined); re-encrypts the password only when truthy
and changed against the original cached record; touches the pin field only
when changed, with a fresh ciphertext when truthy and an explicit null when
removed; any encryption failure is remapped to the single update error. -/
def prepareEditVaultData (W : WebPlatform) (ent : Nat → List Nat)
    (sessionKey : Option Nat) (upd : PlainEditData) (orig : Option CacheVault) :
    Except String VaultUpdateDoc :=
  match sessionKey with
  | none => Except.error "Encryption key not available. Cannot prepare vault data."
  | some k =>
      match orig with
      | none => Except.error "Original vault data missing for comparison."
      | some o =>
          match (do
            let encPw ←
              if truthyStr upd.password ∧ upd.password ≠ o.password then do
                let encryptedPass ← encryptData W (ent 0) k (upd.password.getD "")
                pure (some { iv := arrayBufferToBase64 encryptedPass.1,
                             ciphertext := arrayBufferToBase64 encryptedPass.2 })
              else pure none
            let encPin ←
              if upd.pin ≠ o.pin then
                if truthyStr upd.pin then do
                  let encryptedPin ← encryptData W
                    (ent (if truthyStr upd.password ∧ upd.password ≠ o.password
                          then 1 else 0)) k (upd.pin.getD "")
                  pure (some (some
                    { iv := arrayBufferToBase64 encryptedPin.1,
                      ciphertext := arrayBufferToBase64 encryptedPin.2 }))
                else pure (some none)
              else pure none
            pure { title := upd.title, username := orNull upd.username,
                   email := orNull upd.email, imageData := upd.imageData,
                   encryptedPassword := encPw, encryptedPin := encPin }
            : Except String VaultUpdateDoc) with
          | Except.ok u => Except.ok u
          | Except.error _ =>
              Except.error "Failed to encrypt vault data for update."

/-- Model of the store-side updateDoc semantics: only the fields present in
the update document replace the stored ones; omitted fields keep their
previous bytes. -/
def applyVaultUpdate (docu : StoredDoc) (u : VaultUpdateDoc) : StoredDoc :=
  { docu with
    title := u.title, username := u.username, email := u.email,
    imageData :=
      match u.imageData with
      | none => docu.imageData
      | some v => v,
    encryptedPassword :=
      match u.encryptedPassword with
      | none => docu.encryptedPassword
      | some e => some e,
    encryptedPin :=
      match u.encryptedPin with
      | none => docu.encryptedPin
      | some v => v }

/-- C6: an edit whose password is unchanged against the original cached
record omits encryptedPassword from the update, so applying the update to
any stored document leaves the password ciphertext bytes unaltered; and
every edit whose pin changed — whether or not the password changed too —
writes either a fresh encryption of the new pin under the session key (the
IV draw being the second one when the password was also re-encrypted) or an
explicit null when the pin was removed. -/
theorem prepareEditVaultData_minimality (W : WebPlatform)
    (ent : Nat → List Nat) (k : Nat) (upd : PlainEditData) (o : CacheVault)
    (u : VaultUpdateDoc)
    (hres : prepareEditVaultData W ent (some k) upd (some o) = Except.ok u) :
    (upd.password = o.password →
      u.encryptedPassword = none ∧
      ∀ docu : StoredDoc,
        (applyVaultUpdate docu u).encryptedPassword = docu.encryptedPassword) ∧
    (upd.pin ≠ o.pin →
      (truthyStr upd.pin = true →
        ∃ ct, W.aesGcmEncrypt k
            (ent (if truthyStr upd.password ∧ upd.password ≠ o.password
                  then 1 else 0))
            (W.utf8Encode (upd.pin.getD "")) = Except.ok ct ∧
          u.encryptedPin = some (some
            { iv := arrayBufferToBase64
                (ent (if truthyStr upd.password ∧ upd.password ≠ o.password
                      then 1 else 0)),
              ciphertext := arrayBufferToBase64 ct })) ∧
      (truthyStr upd.pin = false → u.encryptedPin = some none)) := by
  by_cases hc1 : truthyStr upd.password = true ∧ upd.password ≠ o.password
  · cases hpe : W.aesGcmEncrypt k (ent 0) (W.utf8Encode (upd.password.getD ""))
      with
    | error e =>
        simp [prepareEditVaultData, hc1, encryptData, hpe, bind, Except.bind,
          pure, Except.pure] at hres
    | ok ctp =>
        refine ⟨fun hpw => absurd hpw hc1.2, fun hpin => ?_⟩
        by_cases htr : truthyStr upd.pin = true
        · cases hp2 : W.aesGcmEncrypt k (ent 1) (W.utf8Encode (upd.pin.getD ""))
            with
          | error e =>
              simp [prepareEditVaultData, hc1, hpin, htr, encryptData, hpe,
                hp2, bind, Except.bind, pure, Except.pure] at hres
          | ok ct =>
              simp [prepareEditVaultData, hc1, hpin, htr, encryptData, hpe,
                hp2, bind, Except.bind, pure, Except.pure] at hres
              subst hres
              refine ⟨fun _ => ⟨ct, ?_, ?_⟩, fun hf => ?_⟩
              · simpa [hc1] using hp2
              · simp [hc1]
              · rw [htr] at hf
                cases hf
        · have htrf : truthyStr upd.pin = false := by
            cases hv : truthyStr upd.pin
            · rfl
            · exact absurd hv htr
          simp [prepareEditVaultData, hc1, hpin, htrf, encryptData, hpe,
            bind, Except.bind, pure, Except.pure] at hres
          subst hres
          refine ⟨fun ht => ?_, fun _ => rfl⟩
          rw [htrf] at ht
          cases ht
  · by_cases hpin : upd.pin = o.pin
    · simp [prepareEditVaultData, if_neg hc1, hpin, bind, Except.bind, pure,
        Except.pure] at hres
      subst hres
      exact ⟨fun _ => ⟨rfl, fun docu => rfl⟩, fun hchg => absurd hpin hchg⟩
    · by_cases htr : truthyStr upd.pin = true
      · cases hp2 : W.aesGcmEncrypt k (ent 0) (W.utf8Encode (upd.pin.getD ""))
          with
        | error e =>
            simp [prepareEditVaultData, if_neg hc1, hpin, htr, encryptData,
              hp2, bind, Except.bind, pure, Except.pure] at hres
        | ok ct =>
            simp [prepareEditVaultData, if_neg hc1, hpin, htr, encryptData,
              hp2, bind, Except.bind, pure, Except.pure] at hres
            subst hres
            refine ⟨fun _ => ⟨rfl, fun docu => rfl⟩,
              fun _ => ⟨fun _ => ⟨ct, ?_, ?_⟩, fun hf => ?_⟩⟩
            · simpa [if_neg hc1] using hp2
            · simp [if_neg hc1]
            · rw [htr] at hf
              cases hf
      · have htrf : truthyStr upd.pin = false := by
          cases hv : truthyStr upd.pin
          · rfl
          · exact absurd hv htr
        simp [prepareEditVaultData, if_neg hc1, hpin, htrf, bind,
          Except.bind, pure, Except.pure] at hres
        subst hres
        refine ⟨fun _ => ⟨rfl, fun docu => rfl⟩,
          fun _ => ⟨fun ht => ?_, fun _ => rfl⟩⟩
        rw [htrf] at ht
        cases ht

/-- Original cached record used by the C6 witness. -/
def toyOrigCv : CacheVault :=
  { id := 4, title := "Mail", username := none, email := none,
    imageData := none, isMasterProtected := false, masterSalt := none,
    masterEncryptedPayload := none, password := some "pw", pin := some "1",
    decryptionError := false, encryptedPassword := none, encryptedPin := none }

/-- Edit input of the C6 witness: same password, changed pin. -/
def toyEditData : PlainEditData :=
  { title := "Mail 2", username := none, email := none,
    password := some "pw", pin := some "2", imageData := none }

/-- The update document the C6 witness expects. -/
def toyEditUpdate : VaultUpdateDoc :=
  { title := "Mail 2", username := none, email := none, imageData := none,
    encryptedPassword := none,
    encryptedPin := some (some
      { iv := arrayBufferToBase64 (toyEnt 0),
        ciphertext := arrayBufferToBase64 (9 % 251 :: toyWeb.utf8Encode "2") }) }

/-- Edit input of the second C6 scenario: password and pin both changed. -/
def toyEditData2 : PlainEditData :=
  { title := "Mail 3", username := none, email := none,
    password := some "new", pin := some "2", imageData := none }

/-- The update document the second C6 scenario expects: fresh password
ciphertext from the first IV draw, fresh pin ciphertext from the second. -/
def toyEditUpdate2 : VaultUpdateDoc :=
  { title := "Mail 3", username := none, email := none, imageData := none,
    encryptedPassword := some
      { iv := arrayBufferToBase64 (toyEnt 0),
        ciphertext := arrayBufferToBase64 (9 % 251 :: toyWeb.utf8Encode "new") },
    encryptedPin := some (some
      { iv := arrayBufferToBase64 (toyEnt 1),
        ciphertext := arrayBufferToBase64 (9 % 251 :: toyWeb.utf8Encode "2") }) }

/-- Witness for C6: a concrete edit with unchanged password and changed pin
omits encryptedPassword (preserving any stored ciphertext under the update)
and writes a fresh pin ciphertext; a second edit with both password and pin
changed still writes the fresh pin ciphertext, drawn from the second IV. -/
theorem prepareEditVaultData_minimality_witness :
    toyEditUpdate.encryptedPassword = none ∧
    (applyVaultUpdate
        { title := "Mail", username := none, email := none, imageData := none,
          isMasterProtected := false,
          encryptedPassword := some
            { iv := arrayBufferToBase64 [3], ciphertext := arrayBufferToBase64 [9, 1] },
          encryptedPin := none, masterSalt := none,
          masterEncryptedPayload := none }
        toyEditUpdate).encryptedPassword = some
      { iv := arrayBufferToBase64 [3], ciphertext := arrayBufferToBase64 [9, 1] } ∧
    toyEditUpdate.encryptedPin = some (some
      { iv := arrayBufferToBase64 (toyEnt 0),
        ciphertext := arrayBufferToBase64 (9 % 251 :: toyWeb.utf8Encode "2") }) ∧
    toyEditUpdate2.encryptedPin = some (some
      { iv := arrayBufferToBase64 (toyEnt 1),
        ciphertext := arrayBufferToBase64 (9 % 251 :: toyWeb.utf8Encode "2") }) := by
  have h := prepareEditVaultData_minimality toyWeb toyEnt 9 toyEditData
    toyOrigCv toyEditUpdate rfl
  have h2 := prepareEditVaultData_minimality toyWeb toyEnt 9 toyEditData2
    toyOrigCv toyEditUpdate2 rfl
  have h1 := h.1 rfl
  refine ⟨h1.1, ?_, ?_, ?_⟩
  · rw [h1.2]
  · obtain ⟨ct, hct, hpin⟩ := (h.2 (by decide)).1 (by decide)
    have hc2 : (9 % 251 :: toyWeb.utf8Encode "2") = ct := by
      have h3 := hct
      simp only [toyWeb] at h3
      exact (Except.ok.injEq _ _).mp h3
    rw [hpin, ← hc2]
    decide
  · obtain ⟨ct, hct, hpin⟩ := (h2.2 (by decide)).1 (by decide)
    have hc2 : (9 % 251 :: toyWeb.utf8Encode "2") = ct := by
      have h3 := hct
      simp only [toyWeb] at h3
      exact (Except.ok.injEq _ _).mp h3
    rw [hpin, ← hc2]
    decide

/-- The vaults subcollection of one user: documents with their assigned ids,
the next id the store will assign, and a flag standing for a store that is
currently failing its writes. -/
structure VaultStore where
  docs : List (Nat × StoredDoc)
  nextId : Nat
  failing : Bool
deriving DecidableEq

/-- Model of addVault (src/js/database.js): appends the document under a
fresh auto-generated id and returns that id, or throws the add error when
the store write fails. -/
def addVault (store : VaultStore) (docu : StoredDoc) :
    Except String (VaultStore × Nat) :=
  if store.failing then Except.error "Failed to add vault."
  else
    Except.ok
      ({ store with
          docs := store.docs ++ [(store.nextId, docu)],
          nextId := store.nextId + 1 }, store.nextId)

/-- The plaintext-form entry pushed onto vaultsCache by the add path of
src/js/vault.js: the new id spread over the plaintext vaultData. Fields a
JS cache entry simply lacks (protection markers, error flag, ciphertexts)
are modelled as none/false. -/
def cacheEntryOfAdd (newId : Nat) (d : PlainVaultData) : CacheVault :=
  { id := newId, title := d.title, username := d.username, email := d.email,
    imageData := d.imageData, isMasterProtected := false, masterSalt := none,
    masterEncryptedPayload := none, password := d.password, pin := d.pin,
    decryptionError := false, encryptedPassword := none, encryptedPin := none }

/-- Model of processSave inside handleAddVaultSubmit (src/js/vault.js lines
464-518): requires the session key, encrypts the truthy password and pin
fields, writes the document to the store first, and only on a successful
write pushes the plaintext-form record onto the cache and re-sorts it by
title; on any failure the cache (and on encryption failure also the store)
is left untouched. The returned option is the new id obtained from the
store. -/
def handleAddVaultProcessSave (W : WebPlatform) (ent : Nat → List Nat)
    (sessionKey : Option Nat) (store : VaultStore) (cache : List CacheVault)
    (d : PlainVaultData) (imageData : Option String) :
    VaultStore × List CacheVault × Option Nat :=
  match sessionKey with
  | none => (store, cache, none)
  | some k =>
      let d2 : PlainVaultData := { d with imageData := imageData }
      match (do
        let encPw ←
          if truthyStr d2.password then do
            let encryptedPass ← encryptData W (ent 0) k (d2.password.getD "")
            pure (some { iv := arrayBufferToBase64 encryptedPass.1,
                         ciphertext := arrayBufferToBase64 encryptedPass.2 })
          else pure none
        let encPin ←
          if truthyStr d2.pin then do
            let encryptedPin ← encryptData W
              (ent (if truthyStr d2.password then 1 else 0)) k (d2.pin.getD "")
            pure (some { iv := arrayBufferToBase64 encryptedPin.1,
                         ciphertext := arrayBufferToBase64 encryptedPin.2 })
          else pure none
        pure { title := d2.title, username := d2.username, email := d2.email,
               imageData := d2.imageData, isMasterProtected := false,
               encryptedPassword := encPw, encryptedPin := encPin,
               masterSalt := none, masterEncryptedPayload := none }
        : Except String StoredDoc) with
      | Except.error _ => (store, cache, none)
      | Except.ok dataToSave =>
          match addVault store dataToSave with
          | Except.error _ => (store, cache, none)
          | Except.ok (store2, newVaultId) =>
              (store2,
               sortByTitle (cache ++ [cacheEntryOfAdd newVaultId d2]),
               some newVaultId)

/-- C7: on a successful add the store write happens first and yields the new
id, then the plaintext-form record is appended to the cache which is
re-sorted by title, and the new id is handed back; when the store write
fails the cache is left untouched. -/
theorem addVault_cache_discipline (W : WebPlatform) (ent : Nat → List Nat)
    (k : Nat) (store : VaultStore) (cache : List CacheVault)
    (d : PlainVaultData) (img : Option String) (ct ctPin : List Nat)
    (hpw : truthyStr d.password = true)
    (henc : W.aesGcmEncrypt k (ent 0) (W.utf8Encode (d.password.getD "")) =
      Except.ok ct)
    (hpinEnc : truthyStr d.pin = true →
      W.aesGcmEncrypt k (ent 1) (W.utf8Encode (d.pin.getD "")) =
        Except.ok ctPin) :
    (store.failing = false →
      ∃ docSaved,
        handleAddVaultProcessSave W ent (some k) store cache d img =
          ({ store with
              docs := store.docs ++ [(store.nextId, docSaved)],
              nextId := store.nextId + 1 },
           sortByTitle
             (cache ++ [cacheEntryOfAdd store.nextId { d with imageData := img }]),
           some store.nextId)) ∧
    (store.failing = true →
      handleAddVaultProcessSave W ent (some k) store cache d img =
        (store, cache, none)) := by
  cases htr : truthyStr d.pin with
  | true =>
      have hp2 := hpinEnc htr
      constructor
      · intro hf
        refine ⟨{ title := d.title, username := d.username,
                  email := d.email, imageData := img,
                  isMasterProtected := false,
                  encryptedPassword := some
                    { iv := arrayBufferToBase64 (ent 0),
                      ciphertext := arrayBufferToBase64 ct },
                  encryptedPin := some
                    { iv := arrayBufferToBase64 (ent 1),
                      ciphertext := arrayBufferToBase64 ctPin },
                  masterSalt := none,
                  masterEncryptedPayload := none }, ?_⟩
        simp [handleAddVaultProcessSave, hpw, htr, encryptData, henc, hp2,
          addVault, hf, bind, Except.bind, pure, Except.pure]
      · intro hf
        simp [handleAddVaultProcessSave, hpw, htr, encryptData, henc, hp2,
          addVault, hf, bind, Except.bind, pure, Except.pure]
  | false =>
      constructor
      · intro hf
        refine ⟨{ title := d.title, username := d.username,
                  email := d.email, imageData := img,
                  isMasterProtected := false,
                  encryptedPassword := some
                    { iv := arrayBufferToBase64 (ent 0),
                      ciphertext := arrayBufferToBase64 ct },
                  encryptedPin := none,
                  masterSalt := none,
                  masterEncryptedPayload := none }, ?_⟩
        simp [handleAddVaultProcessSave, hpw, htr, encryptData, henc,
          addVault, hf, bind, Except.bind, pure, Except.pure]
      · intro hf
        simp [handleAddVaultProcessSave, hpw, htr, encryptData, henc,
          addVault, hf, bind, Except.bind, pure, Except.pure]

/-- Store used by the C7 witness. -/
def toyStore : VaultStore := { docs := [], nextId := 3, failing := false }

/-- Failing store used by the C7 witness. -/
def toyFailStore : VaultStore := { docs := [], nextId := 3, failing := true }

/-- Add input of the C7 witness. -/
def toyAddPlain : PlainVaultData :=
  { title := "Mail", username := none, email := none,
    password := some "pw", pin := none, imageData := none,
    isMasterProtected := false, masterPassword := none }

/-- Witness for C7: on the concrete working store the add returns the fresh
id 3 and the cache gains the plaintext record; on the failing store the
cache stays empty and no id is produced. -/
theorem addVault_cache_discipline_witness :
    (handleAddVaultProcessSave toyWeb toyEnt (some 9) toyStore [] toyAddPlain
        none).2 = ([cacheEntryOfAdd 3 toyAddPlain], some 3) ∧
    handleAddVaultProcessSave toyWeb toyEnt (some 9) toyFailStore []
        toyAddPlain none = (toyFailStore, [], none) := by
  have hok := (addVault_cache_discipline toyWeb toyEnt 9 toyStore []
    toyAddPlain none (9 % 251 :: toyWeb.utf8Encode "pw") []
    (by decide) rfl (fun hx => absurd hx (by decide))).1 rfl
  have hfail := (addVault_cache_discipline toyWeb toyEnt 9 toyFailStore []
    toyAddPlain none (9 % 251 :: toyWeb.utf8Encode "pw") []
    (by decide) rfl (fun hx => absurd hx (by decide))).2 rfl
  obtain ⟨docSaved, heq⟩ := hok
  rw [heq, hfail]
  exact ⟨rfl, rfl⟩

end Aetherium
